import Mathlib

/-!
Shallow embedding of the prediction ensemble and decision-fusion engine of
the 4lifeoddeven repository (analysis.js, with `Utils.calculateEMA` from the
utility module and configuration defaults from config.js).  Numbers are
modelled as rationals; the JavaScript value `NaN`, which arises from the
division `0/0`, is modelled explicitly by the type `JSNum`.  Randomness
(`Math.random()`) is modelled by an explicit stream of draws.  The
persistent Q-table and per-model accuracy records, owned by the external
storage collaborator, are passed in and returned explicitly.
-/

/-- A JavaScript number that is either a real (rational) value or `NaN`.
`NaN` appears exactly where the source divides zero by zero. -/
inductive JSNum where
  | nan : JSNum
  | num : ℚ → JSNum
deriving DecidableEq

/-- JavaScript `x >= t` where `x` may be `NaN`: any comparison with `NaN`
is false. -/
def jsGe : JSNum → ℚ → Bool
  | JSNum.nan, _ => false
  | JSNum.num x, t => decide (t ≤ x)

/-- JavaScript `x < t` where `x` may be `NaN`: any comparison with `NaN`
is false. -/
def jsLt : JSNum → ℚ → Bool
  | JSNum.nan, _ => false
  | JSNum.num x, t => decide (x < t)

/-- Parity outcome of a digit prediction. -/
inductive Parity where
  | EVEN : Parity
  | ODD : Parity
deriving DecidableEq

/-- The opposite parity. -/
def Parity.opposite : Parity → Parity
  | Parity.EVEN => Parity.ODD
  | Parity.ODD => Parity.EVEN

/-- One market tick as stored in the tick history: terminal digit, its
parity flag (set by the producer), the quote and a timestamp. -/
structure Tick where
  digit : ℕ
  isEven : Bool
  quote : ℚ
  timestamp : ℕ
deriving DecidableEq

instance : Inhabited Tick := ⟨⟨0, true, 0, 0⟩⟩

/-- Output of one model invocation.  `prediction = none` models the
JavaScript value `null`.  The free-form `details` diagnostics field is not
modelled. -/
structure ModelPrediction where
  model : String
  prediction : Option Parity
  confidence : ℚ
deriving DecidableEq

/-- Result record of `runMonteCarloSimulation`.  `winProbability` is a
`JSNum` because `wins / iterations` is `0/0 = NaN` when `iterations = 0`. -/
structure MonteCarloResult where
  winProbability : JSNum
  iterations : ℕ
  wins : ℕ
deriving DecidableEq

/-- The fused trade decision.  The interpolated numeric parts of the two
threshold `reason` strings are elided; the two literal reason strings used
by the short-circuit and the Monte Carlo veto are kept verbatim. -/
structure Decision where
  finalPrediction : Option Parity
  confidence : ℚ
  shouldTrade : Bool
  reason : String
  modelBreakdown : List ModelPrediction
  scores : Option (ℚ × ℚ)
  simulation : Option MonteCarloResult
deriving DecidableEq

/-- The discretized learner state built by `getState`: last digit, count of
even ticks in the 5-tick window, and the window's parity bit pattern
(`join`ed to a string in the source; the string is injective in the bit
list, so the list itself is the key). -/
structure LearnerState where
  lastDigit : ℕ
  evenCount : ℕ
  pattern : List Bool
deriving DecidableEq

/-- One row of the Q-table: the estimated values of the two actions. -/
structure QRow where
  EVEN : ℚ
  ODD : ℚ
deriving DecidableEq

/-- Value of a row for one action. -/
def QRow.get (r : QRow) : Parity → ℚ
  | Parity.EVEN => r.EVEN
  | Parity.ODD => r.ODD

/-- Row with the value of one action replaced. -/
def QRow.set (r : QRow) : Parity → ℚ → QRow
  | Parity.EVEN, v => ⟨v, r.ODD⟩
  | Parity.ODD, v => ⟨r.EVEN, v⟩

/-- The Q-table: a JavaScript object keyed by `JSON.stringify(state)`,
modelled as an insertion-ordered association list keyed by the state
(stringification is injective on the fixed-shape state record). -/
abbrev QTable := List (LearnerState × QRow)

/-- Stored accuracy record of one model (`Storage.getModels()` entry); only
the `accuracy` percentage is read by the core. -/
structure ModelData where
  accuracy : ℚ
deriving DecidableEq

/-- `CONFIG.models.statistical`. -/
structure StatisticalConfig where
  enabled : Bool
  lookbackPeriod : ℕ
  emaAlpha : ℚ
deriving DecidableEq

/-- `CONFIG.models.pattern`. -/
structure PatternConfig where
  enabled : Bool
  minPatternLength : ℕ
  maxPatternLength : ℕ
  similarityThreshold : ℚ
deriving DecidableEq

/-- `CONFIG.models.ruleBased`. -/
structure RuleBasedConfig where
  enabled : Bool
  streakThreshold : ℕ
  reversalConfidence : ℚ
deriving DecidableEq

/-- `CONFIG.models.reinforcementLearning`. -/
structure RLConfig where
  enabled : Bool
  learningRate : ℚ
  discountFactor : ℚ
  explorationRate : ℚ
deriving DecidableEq

/-- `CONFIG.models`. -/
structure ModelsConfig where
  statistical : StatisticalConfig
  pattern : PatternConfig
  ruleBased : RuleBasedConfig
  reinforcementLearning : RLConfig
deriving DecidableEq

/-- `CONFIG.strategy` (the fields the core reads). -/
structure StrategyConfig where
  weightMethod : String
  ensembleMethod : String
deriving DecidableEq

/-- `CONFIG.trading` (the field the core reads). -/
structure TradingConfig where
  minConfidence : ℚ
deriving DecidableEq

/-- The ambient `CONFIG` object, restricted to the fields the core reads. -/
structure Config where
  models : ModelsConfig
  strategy : StrategyConfig
  trading : TradingConfig
deriving DecidableEq

/-- The default values from config.js. -/
def defaultConfig : Config :=
  ⟨⟨⟨true, 100, 1/10⟩,
    ⟨true, 3, 10, 7/10⟩,
    ⟨true, 3, 7/10⟩,
    ⟨false, 1/10, 19/20, 1/10⟩⟩,
   ⟨"performance", "weighted"⟩,
   ⟨60⟩⟩

/-- JavaScript `xs.slice(-n)`: the last `n` elements, except that
`slice(-0)` is `slice(0)`, the whole array. -/
def sliceNeg {α : Type} (n : ℕ) (xs : List α) : List α :=
  if n = 0 then xs else xs.drop (xs.length - n)

/-- `Utils.calculateEMA(data, period, alpha)`: `null` on empty data,
otherwise the exponential moving average seeded with the first element;
a `null` alpha defaults to `2/(period+1)`. -/
def calculateEMA (data : List ℚ) (period : ℚ) (alphaArg : Option ℚ) : Option ℚ :=
  match data with
  | [] => none
  | d :: rest =>
      let alpha := alphaArg.getD (2 / (period + 1))
      some (rest.foldl (fun ema x => alpha * x + (1 - alpha) * ema) d)

/-- `lookback = min(ticks.length, lookbackPeriod)` of `statisticalModel`. -/
def statLookback (cfg : Config) (ticks : List Tick) : ℕ :=
  min ticks.length cfg.models.statistical.lookbackPeriod

/-- `recentTicks = ticks.slice(-lookback)` of `statisticalModel`. -/
def statRecentTicks (cfg : Config) (ticks : List Tick) : List Tick :=
  sliceNeg (statLookback cfg ticks) ticks

/-- `evenCount` of `statisticalModel`. -/
def statEvenCount (cfg : Config) (ticks : List Tick) : ℕ :=
  ((statRecentTicks cfg ticks).filter (fun t => t.isEven)).length

/-- `evenProb` of `statisticalModel` after the Bayesian shrink with
`priorWeight = 0.1` toward the 0.5 prior. -/
def statShrunkEven (cfg : Config) (ticks : List Tick) : ℚ :=
  ((statEvenCount cfg ticks : ℚ) / (statLookback cfg ticks : ℚ)) * (1 - 1/10)
    + (1/2) * (1/10)

/-- `oddProb` of `statisticalModel` after the Bayesian shrink. -/
def statShrunkOdd (cfg : Config) (ticks : List Tick) : ℚ :=
  (((statLookback cfg ticks - statEvenCount cfg ticks : ℕ) : ℚ)
      / (statLookback cfg ticks : ℚ)) * (1 - 1/10)
    + (1/2) * (1/10)

/-- The EMA over the parity signal of `recentTicks.slice(-20)` used by
`statisticalModel`. -/
def statEMA (cfg : Config) (ticks : List Tick) : Option ℚ :=
  calculateEMA
    ((sliceNeg 20 (statRecentTicks cfg ticks)).map (fun t => if t.isEven then (1 : ℚ) else 0))
    10 (some cfg.models.statistical.emaAlpha)

/-- The final `(evenProb, oddProb)` pair of `statisticalModel`: blended
with the EMA when it is defined, otherwise the shrunk pair. -/
def statProbs (cfg : Config) (ticks : List Tick) : ℚ × ℚ :=
  match statEMA cfg ticks with
  | some e => ((statShrunkEven cfg ticks + e) / 2, 1 - (statShrunkEven cfg ticks + e) / 2)
  | none => (statShrunkEven cfg ticks, statShrunkOdd cfg ticks)

/-- `Analysis.statisticalModel`: Bayesian-shrunk parity frequency blended
with an EMA trend over the last (up to) 20 ticks. -/
def statisticalModel (cfg : Config) (ticks : List Tick) : ModelPrediction :=
  if ticks.length < 10 then ⟨"statistical", none, 0⟩
  else
    ⟨"statistical",
     some (if (statProbs cfg ticks).1 > (statProbs cfg ticks).2 then Parity.EVEN else Parity.ODD),
     max (statProbs cfg ticks).1 (statProbs cfg ticks).2⟩

/-- `Analysis.calculatePatternSimilarity`: 0 on a length mismatch,
otherwise the fraction of position-wise equal digits; on two empty
sequences the source computes `0/0`, which is `NaN`. -/
def calculatePatternSimilarity (pattern1 pattern2 : List ℕ) : JSNum :=
  if pattern1.length ≠ pattern2.length then JSNum.num 0
  else if pattern1.length = 0 then JSNum.nan
  else
    let matchCount := ((pattern1.zip pattern2).filter (fun p => p.1 = p.2)).length
    JSNum.num ((matchCount : ℚ) / (pattern1.length : ℚ))

/-- One match found by the similarity search. -/
structure PatternMatch where
  index : ℕ
  similarity : JSNum
  following : ℕ
deriving DecidableEq

/-- `Analysis.findSimilarPatterns`: scan windows `i < len - target - 1`
and keep those whose similarity reaches the configured threshold, noting
the digit that follows the window. -/
def findSimilarPatterns (cfg : Config) (ticks : List Tick) (targetPattern : List ℕ) : List PatternMatch :=
  (List.range (ticks.length - targetPattern.length - 1)).filterMap (fun i =>
    let candidate := ((ticks.drop i).take targetPattern.length).map (fun t => t.digit)
    let similarity := calculatePatternSimilarity targetPattern candidate
    if jsGe similarity cfg.models.pattern.similarityThreshold then
      some ⟨i, similarity, ((ticks.drop (i + targetPattern.length)).headI).digit⟩
    else none)

/-- `Analysis.detectAnomaly`: the last 10 ticks uniformly even or odd. -/
def detectAnomaly (ticks : List Tick) : Bool :=
  if ticks.length < 10 then false
  else
    let recent := sliceNeg 10 ticks
    recent.all (fun t => t.isEven) || recent.all (fun t => !t.isEven)

/-- The query sequence of `patternModel`: the trailing `minPatternLength`
digits of the last `maxPatternLength` digits. -/
def patternQuery (cfg : Config) (ticks : List Tick) : List ℕ :=
  sliceNeg cfg.models.pattern.minPatternLength
    ((sliceNeg cfg.models.pattern.maxPatternLength ticks).map (fun t => t.digit))

/-- The matches found by `patternModel`. -/
def patternFound (cfg : Config) (ticks : List Tick) : List PatternMatch :=
  findSimilarPatterns cfg ticks (patternQuery cfg ticks)

/-- `followingDigits` of `patternModel`. -/
def patternFollowing (cfg : Config) (ticks : List Tick) : List ℕ :=
  (patternFound cfg ticks).map (fun m => m.following)

/-- `evenFollowing` of `patternModel`. -/
def patternEvenFollowing (cfg : Config) (ticks : List Tick) : ℕ :=
  ((patternFollowing cfg ticks).filter (fun d => d % 2 = 0)).length

/-- `evenProb` of `patternModel`. -/
def patternEvenProb (cfg : Config) (ticks : List Tick) : ℚ :=
  (patternEvenFollowing cfg ticks : ℚ) / ((patternFollowing cfg ticks).length : ℚ)

/-- `oddProb` of `patternModel` (`oddFollowing = length - evenFollowing`). -/
def patternOddProb (cfg : Config) (ticks : List Tick) : ℚ :=
  (((patternFollowing cfg ticks).length - patternEvenFollowing cfg ticks : ℕ) : ℚ)
    / ((patternFollowing cfg ticks).length : ℚ)

/-- The confidence of `patternModel`: the majority fraction, scaled by 0.7
during an anomaly. -/
def patternConfidence (cfg : Config) (ticks : List Tick) : ℚ :=
  if detectAnomaly ticks then
    max (patternEvenProb cfg ticks) (patternOddProb cfg ticks) * (7/10)
  else max (patternEvenProb cfg ticks) (patternOddProb cfg ticks)

/-- `Analysis.patternModel`: historical analog search with an anomaly
discount on confidence. -/
def patternModel (cfg : Config) (ticks : List Tick) : ModelPrediction :=
  if ticks.length < 20 then ⟨"pattern", none, 0⟩
  else if (patternFound cfg ticks).length = 0 then ⟨"pattern", none, 0⟩
  else
    ⟨"pattern",
     some (if patternEvenProb cfg ticks > patternOddProb cfg ticks
           then Parity.EVEN else Parity.ODD),
     patternConfidence cfg ticks⟩

/-- The tail of the streak scan in `Analysis.ruleBasedModel`: the loop runs
from index `recent.length - 2` downward while the parity keeps matching the
streak type, i.e. it measures the matching suffix of `recent.dropLast`. -/
def streakRun (streakEven : Bool) (l : List Tick) : ℕ :=
  (l.reverse.takeWhile (fun t => t.isEven == streakEven)).length

/-- The 10-tick window the rule engine inspects. -/
def ruleRecent (ticks : List Tick) : List Tick :=
  sliceNeg 10 ticks

/-- The most recent tick of the rule window (the window is nonempty
whenever the model runs, since history length is at least 5). -/
def ruleLastTick (ticks : List Tick) : Tick :=
  (ruleRecent ticks).getLastD default

/-- Streak length ending at the last tick: 1 plus the matching run before
it. -/
def ruleStreakCount (ticks : List Tick) : ℕ :=
  1 + streakRun (ruleLastTick ticks).isEven (ruleRecent ticks).dropLast

/-- Streak parity of the last tick. -/
def ruleStreakType (ticks : List Tick) : Parity :=
  if (ruleLastTick ticks).isEven then Parity.EVEN else Parity.ODD

/-- Rules 1 and 2 of `Analysis.ruleBasedModel`: streak reversal above the
threshold, then short-streak continuation at exactly 2, starting from the
initial state (no prediction, confidence 0.5). -/
def rulesStreak (cfg : Config) (streakCount : ℕ) (streakType : Parity) : Option Parity × ℚ :=
  let s0 : Option Parity × ℚ := (none, 1/2)
  let s1 :=
    if cfg.models.ruleBased.streakThreshold ≤ streakCount then
      (some streakType.opposite, cfg.models.ruleBased.reversalConfidence)
    else s0
  if streakCount = 2 then (some streakType, 3/5) else s1

/-- Rule 3 of `Analysis.ruleBasedModel`: the Fibonacci trigger, firing when
the last digit is a Fibonacci digit and either no rule has predicted yet or
the current confidence is below 0.65. -/
def fibRule (lastDigit : ℕ) (isLastEven : Bool) (s : Option Parity × ℚ) : Option Parity × ℚ :=
  if lastDigit ∈ [0, 1, 1, 2, 3, 5, 8] then
    if s.1 = none ∨ s.2 < 13/20 then
      (some (if isLastEven then Parity.ODD else Parity.EVEN), 13/20)
    else s
  else s

/-- Rule 4 of `Analysis.ruleBasedModel`: default alternation at confidence
0.52 when no rule has predicted. -/
def defaultRule (isLastEven : Bool) (s : Option Parity × ℚ) : Option Parity × ℚ :=
  if s.1 = none then
    (some (if isLastEven then Parity.ODD else Parity.EVEN), 13/25)
  else s

/-- `Analysis.ruleBasedModel`: the ordered heuristic chain over the last
10 ticks. -/
def ruleBasedModel (cfg : Config) (ticks : List Tick) : ModelPrediction :=
  if ticks.length < 5 then ⟨"ruleBased", none, 0⟩
  else
    ⟨"ruleBased",
     (defaultRule (ruleLastTick ticks).isEven
       (fibRule (ruleLastTick ticks).digit (ruleLastTick ticks).isEven
         (rulesStreak cfg (ruleStreakCount ticks) (ruleStreakType ticks)))).1,
     (defaultRule (ruleLastTick ticks).isEven
       (fibRule (ruleLastTick ticks).digit (ruleLastTick ticks).isEven
         (rulesStreak cfg (ruleStreakCount ticks) (ruleStreakType ticks)))).2⟩

/-- `Analysis.getState`: the discretized learner state over the last 5
ticks. -/
def getState (ticks : List Tick) : LearnerState :=
  let recent := sliceNeg 5 ticks
  ⟨(recent.getLastD default).digit,
   (recent.filter (fun t => t.isEven)).length,
   recent.map (fun t => t.isEven)⟩

/-- Lookup of a state's row in the Q-table (`qTable[stateKey]`; object keys
are unique, so the first binding is the binding). -/
def qlookup : QTable → LearnerState → Option QRow
  | [], _ => none
  | p :: rest, s => if p.1 = s then some p.2 else qlookup rest s

/-- The row of a state, with the missing-row default. -/
def qlookupD (t : QTable) (s : LearnerState) : QRow :=
  (qlookup t s).getD ⟨0, 0⟩

/-- `if (!qTable[k]) qTable[k] = { EVEN: 0, ODD: 0 }`: lazily create a
row, appending in insertion order. -/
def ensureRow (s : LearnerState) (t : QTable) : QTable :=
  if (qlookup t s).isSome then t
  else (t : List (LearnerState × QRow)) ++ [(s, ⟨0, 0⟩)]

/-- `qTable[k] = row` on an existing or new key. -/
def setRow (t : QTable) (s : LearnerState) (row : QRow) : QTable :=
  if (qlookup t s).isSome then
    (t : List (LearnerState × QRow)).map (fun p => if p.1 = s then (s, row) else p)
  else (t : List (LearnerState × QRow)) ++ [(s, row)]

/-- `Analysis.reinforcementLearningModel`: epsilon-greedy action selection
over the (lazily defaulted) Q-row of the current state.  `r1` is the draw
compared against the exploration rate and `r2` the draw used by a random
action; the confidence is `max(row)/10` clamped above by 1. -/
def reinforcementLearningModel (cfg : Config) (qTable : QTable) (r1 r2 : ℚ)
    (ticks : List Tick) : ModelPrediction :=
  if ticks.length < 20 then ⟨"reinforcementLearning", none, 0⟩
  else
    ⟨"reinforcementLearning",
     some (if r1 < cfg.models.reinforcementLearning.explorationRate then
             (if r2 < 1/2 then Parity.EVEN else Parity.ODD)
           else (if (qlookupD qTable (getState ticks)).ODD
                     ≤ (qlookupD qTable (getState ticks)).EVEN
                 then Parity.EVEN else Parity.ODD)),
     min (max (qlookupD qTable (getState ticks)).EVEN
              (qlookupD qTable (getState ticks)).ODD / 10) 1⟩

/-- The Q-table as left behind by `Analysis.reinforcementLearningModel`:
the model lazily inserts a default row for the current state (the table is
not persisted by the model, but no key is ever removed). -/
def rlModelTable (qTable : QTable) (ticks : List Tick) : QTable :=
  if ticks.length < 20 then qTable
  else ensureRow (getState ticks) qTable

/-- `Analysis.updateQLearning`: lazily create both rows, then apply the
temporal-difference update to the prior state's value for the action, and
return the table handed to `Storage.saveQTable`. -/
def updateQLearning (cfg : Config) (qTable : QTable) (state : LearnerState)
    (action : Parity) (reward : ℚ) (newState : LearnerState) : QTable :=
  let t1 := ensureRow state qTable
  let t2 := ensureRow newState t1
  let alpha := cfg.models.reinforcementLearning.learningRate
  let gamma := cfg.models.reinforcementLearning.discountFactor
  let currentQ := (qlookupD t2 state).get action
  let nextRow := qlookupD t2 newState
  let maxNextQ := max nextRow.EVEN nextRow.ODD
  setRow t2 state
    ((qlookupD t2 state).set action (currentQ + alpha * (reward + gamma * maxNextQ - currentQ)))

/-- The stored accuracy fraction per prediction used by performance
weighting: `accuracy / 100` of the model's record, or the 0.5 default when
no record exists. -/
def performanceAccuracies (models : List (String × ModelData))
    (predictions : List ModelPrediction) : List ℚ :=
  predictions.map (fun p =>
    match (models.find? (fun m => m.1 = p.model)).map (fun m => m.2) with
    | some d => d.accuracy / 100
    | none => 1/2)

/-- `Analysis.calculateWeights`: one weight per prediction, by equal split,
stored-accuracy share, or self-confidence share, with a fallback to the
equal split on a non-positive total and on unknown method names. -/
def calculateWeights (models : List (String × ModelData))
    (predictions : List ModelPrediction) (method : String) : List ℚ :=
  match method with
  | "equal" => predictions.map (fun _ => 1 / (predictions.length : ℚ))
  | "performance" =>
      let accuracies := performanceAccuracies models predictions
      let totalAccuracy := accuracies.foldl (· + ·) 0
      accuracies.map (fun acc =>
        if 0 < totalAccuracy then acc / totalAccuracy else 1 / (predictions.length : ℚ))
  | "confidence" =>
      let confidences := predictions.map (fun p => p.confidence)
      let totalConfidence := confidences.foldl (· + ·) 0
      confidences.map (fun conf =>
        if 0 < totalConfidence then conf / totalConfidence else 1 / (predictions.length : ℚ))
  | _ => predictions.map (fun _ => 1 / (predictions.length : ℚ))

/-- The weighted vote accumulation of `Analysis.fuseDecisions`: each
prediction routes `confidence * weight` to the score of its parity;
predictions of `none` contribute to neither. -/
def voteScores (predictions : List ModelPrediction) (weights : List ℚ) : ℚ × ℚ :=
  (predictions.zip weights).foldl
    (fun s pw =>
      match pw.1.prediction with
      | some Parity.EVEN => (s.1 + pw.1.confidence * pw.2, s.2)
      | some Parity.ODD => (s.1, s.2 + pw.1.confidence * pw.2)
      | none => s)
    (0, 0)

/-- The inner walk of one Monte Carlo iteration: accumulate
`confidence / n` per prediction until the cumulative sum reaches the drawn
value; `none` when the sum never reaches it. -/
def mcSelect (n : ℕ) (randomValue : ℚ) : ℚ → List ModelPrediction → Option ModelPrediction
  | _, [] => none
  | cum, p :: rest =>
      let cum' := cum + p.confidence / (n : ℚ)
      if randomValue ≤ cum' then some p else mcSelect n randomValue cum' rest

/-- `Analysis.runMonteCarloSimulation`: per iteration, one draw selects a
prediction by the cumulative walk and, if one is selected, a second draw is
a win with that prediction's own confidence.  `winProbability` is
`wins / iterations`, which is `NaN` when `iterations = 0`. -/
def runMonteCarloSimulation (rnd : ℕ → ℚ) (predictions : List ModelPrediction)
    (iterations : ℕ) : MonteCarloResult :=
  let final := (List.range iterations).foldl
    (fun (s : ℕ × ℕ) _ =>
      let randomValue := rnd s.2
      match mcSelect predictions.length randomValue 0 predictions with
      | some p => (if rnd (s.2 + 1) < p.confidence then s.1 + 1 else s.1, s.2 + 2)
      | none => (s.1, s.2 + 1))
    (0, 0)
  ⟨if iterations = 0 then JSNum.nan else JSNum.num ((final.1 : ℚ) / (iterations : ℚ)),
   iterations, final.1⟩

/-- `Analysis.fuseDecisions`: empty-list short-circuit, weighting, weighted
vote, threshold test, and the Monte Carlo veto in the weighted ensemble
mode. -/
def fuseDecisions (cfg : Config) (models : List (String × ModelData)) (rnd : ℕ → ℚ)
    (predictions : List ModelPrediction) : Decision :=
  if predictions.length = 0 then
    ⟨none, 0, false, "No models provided predictions", [], none, none⟩
  else
    let weights := calculateWeights models predictions cfg.strategy.weightMethod
    let sc := voteScores predictions weights
    let totalScore := sc.1 + sc.2
    let finalPrediction := if sc.1 > sc.2 then Parity.EVEN else Parity.ODD
    let confidence := if 0 < totalScore then max sc.1 sc.2 / totalScore else 0
    let minConfidence := cfg.trading.minConfidence / 100
    let shouldTrade := decide (minConfidence ≤ confidence)
    let reason :=
      if minConfidence ≤ confidence then "Strong signal above threshold"
      else "Confidence below threshold"
    if shouldTrade && (cfg.strategy.ensembleMethod == "weighted") then
      let simResult := runMonteCarloSimulation rnd predictions 100
      if jsLt simResult.winProbability (1/2) then
        ⟨some finalPrediction, confidence, false,
         "Monte Carlo simulation suggests unfavorable odds", predictions, none, some simResult⟩
      else
        ⟨some finalPrediction, confidence, shouldTrade, reason, predictions,
         some (sc.1, sc.2), none⟩
    else
      ⟨some finalPrediction, confidence, shouldTrade, reason, predictions,
       some (sc.1, sc.2), none⟩



theorem qlookup_append (t1 t2 : QTable) (k : LearnerState) :
    qlookup (t1 ++ t2) k = ((qlookup t1 k).orElse (fun _ => qlookup t2 k)) := by
  induction t1 with
  | nil => simp [qlookup, Option.orElse]
  | cons a l ih =>
      by_cases h : a.1 = k <;> simp [qlookup, h, ih, Option.orElse]

theorem qlookup_ensureRow (x k : LearnerState) (t : QTable) :
    qlookup (ensureRow x t) k = if k = x then some (qlookupD t x) else qlookup t k := by
  unfold ensureRow
  by_cases hx : (qlookup t x).isSome
  · rw [if_pos hx]
    by_cases hk : k = x
    · subst hk
      obtain ⟨row, hrow⟩ := Option.isSome_iff_exists.mp hx
      simp [qlookupD, hrow]
    · simp [hk]
  · rw [if_neg hx]
    rw [qlookup_append]
    have hnone : qlookup t x = none := Option.not_isSome_iff_eq_none.mp hx
    by_cases hk : k = x
    · subst hk
      simp [hnone, qlookup, qlookupD, Option.orElse]
    · have hne : ¬x = k := fun he => hk he.symm
      cases h : qlookup t k <;>
        simp [h, qlookup, Option.orElse, hne, hk]

theorem qlookupD_ensureRow (x k : LearnerState) (t : QTable) :
    qlookupD (ensureRow x t) k = qlookupD t k := by
  unfold qlookupD
  rw [qlookup_ensureRow]
  by_cases hk : k = x
  · subst hk; simp [qlookupD]
  · simp [hk]

theorem qlookup_cons (p : LearnerState × QRow) (rest : QTable) (k : LearnerState) :
    qlookup (p :: rest) k = if p.1 = k then some p.2 else qlookup rest k := rfl

theorem qlookup_map_set (l : QTable) (s k : LearnerState) (row : QRow) :
    qlookup (l.map (fun p => if p.1 = s then (s, row) else p)) k
      = if k = s then (if (qlookup l s).isSome then some row else none)
        else qlookup l k := by
  induction l with
  | nil => by_cases hk : k = s <;> simp [qlookup, hk]
  | cons a l ih =>
      simp only [List.map_cons]
      by_cases ha : a.1 = s
      · by_cases hsk : s = k
        · subst hsk
          simp [ha, qlookup_cons]
        · have hks : ¬k = s := fun h => hsk h.symm
          have hak : ¬a.1 = k := fun h => hsk (ha ▸ h)
          simp only [ha, if_true, qlookup_cons, hsk, if_false]
          rw [ih]
          simp [hks, hak]
      · by_cases hak : a.1 = k
        · have hks : ¬k = s := fun h => ha (hak.trans h)
          simp [qlookup_cons, ha, hak, hks]
        · simp only [ha, if_false, qlookup_cons, hak]
          rw [ih]

theorem qlookup_setRow (t : QTable) (s : LearnerState) (row : QRow) (k : LearnerState) :
    qlookup (setRow t s row) k = if k = s then some row else qlookup t k := by
  unfold setRow
  by_cases hs : (qlookup t s).isSome
  · rw [if_pos hs, qlookup_map_set]
    by_cases hk : k = s <;> simp [hk, hs]
  · rw [if_neg hs, qlookup_append]
    have hnone : qlookup t s = none := Option.not_isSome_iff_eq_none.mp hs
    by_cases hk : k = s
    · subst hk
      simp [hnone, qlookup, Option.orElse]
    · have hne : ¬s = k := fun he => hk he.symm
      cases h : qlookup t k <;>
        simp [h, qlookup, Option.orElse, hne, hk]

theorem QRow.get_set_same (r : QRow) (a : Parity) (v : ℚ) :
    (r.set a v).get a = v := by
  cases a <;> rfl

theorem QRow.get_set_other (r : QRow) (a : Parity) (v : ℚ) :
    (r.set a v).get a.opposite = r.get a.opposite := by
  cases a <;> rfl

theorem updateQLearning_lookup (cfg : Config) (qTable : QTable) (s : LearnerState)
    (a : Parity) (r : ℚ) (s' : LearnerState) (k : LearnerState) :
    qlookup (updateQLearning cfg qTable s a r s') k
      = if k = s then
          some ((qlookupD qTable s).set a
            ((qlookupD qTable s).get a
              + cfg.models.reinforcementLearning.learningRate
                * (r + cfg.models.reinforcementLearning.discountFactor
                     * max (qlookupD qTable s').EVEN (qlookupD qTable s').ODD
                   - (qlookupD qTable s).get a)))
        else if k = s' then some (qlookupD qTable s')
        else qlookup qTable k := by
  simp only [updateQLearning, qlookup_setRow, qlookup_ensureRow, qlookupD_ensureRow]
  by_cases h1 : k = s <;> by_cases h2 : k = s' <;> simp [h1, h2]

/-- C6: the feedback operation applies the temporal-difference rule to the
prior state's value for the taken action; in particular with the default
learning rate 0.1 and discount 0.95, reward +1, an unseen prior state and a
next-state row of zeros, the new value is exactly 0.1. -/
theorem C6_learner_td_rule (cfg : Config) (qTable : QTable) (s : LearnerState)
    (a : Parity) (r : ℚ) (s' : LearnerState) :
    (qlookupD (updateQLearning cfg qTable s a r s') s).get a
      = (qlookupD qTable s).get a
        + cfg.models.reinforcementLearning.learningRate
          * (r + cfg.models.reinforcementLearning.discountFactor
               * max (qlookupD qTable s').EVEN (qlookupD qTable s').ODD
             - (qlookupD qTable s).get a)
  ∧ (cfg = defaultConfig → r = 1 → qlookup qTable s = none →
      qlookupD qTable s' = ⟨0, 0⟩ →
      (qlookupD (updateQLearning cfg qTable s a r s') s).get a = 1/10) := by
  have main : (qlookupD (updateQLearning cfg qTable s a r s') s).get a
      = (qlookupD qTable s).get a
        + cfg.models.reinforcementLearning.learningRate
          * (r + cfg.models.reinforcementLearning.discountFactor
               * max (qlookupD qTable s').EVEN (qlookupD qTable s').ODD
             - (qlookupD qTable s).get a) := by
    unfold qlookupD
    rw [updateQLearning_lookup]
    simp [QRow.get_set_same, qlookupD]
  refine ⟨main, ?_⟩
  intro hcfg hr hnone hrow
  rw [main, hcfg, hr, hrow]
  have hzero : (qlookupD qTable s).get a = 0 := by
    unfold qlookupD
    rw [hnone]
    cases a <;> rfl
  rw [hzero]
  norm_num [defaultConfig]

theorem C6_learner_td_rule_witness :
    (qlookupD (updateQLearning defaultConfig [] ⟨1, 2, [true]⟩ Parity.EVEN 1
        ⟨2, 3, [false]⟩) ⟨1, 2, [true]⟩).get Parity.EVEN = 1/10 :=
  (C6_learner_td_rule defaultConfig [] ⟨1, 2, [true]⟩ Parity.EVEN 1 ⟨2, 3, [false]⟩).2
    rfl rfl rfl rfl

/-- C9: the feedback operation lazily creates the prior- and next-state
rows with the zero default, changes only the prior row's value for the
taken action, leaves every other key and the other action untouched, and
neither the feedback operation nor the learner's prediction pass ever
removes a key from the table. -/
theorem C9_value_table_frame (cfg : Config) (qTable : QTable) (s : LearnerState)
    (a : Parity) (r : ℚ) (s' : LearnerState) (k : LearnerState) (ticks : List Tick) :
    (k ≠ s → k ≠ s' → qlookup (updateQLearning cfg qTable s a r s') k = qlookup qTable k)
  ∧ (k ≠ s → k = s' → qlookup (updateQLearning cfg qTable s a r s') k
        = some (qlookupD qTable k))
  ∧ (qlookup (updateQLearning cfg qTable s a r s') s).isSome = true
  ∧ (qlookupD (updateQLearning cfg qTable s a r s') s).get a.opposite
        = (qlookupD qTable s).get a.opposite
  ∧ ((qlookup qTable k).isSome = true →
        (qlookup (updateQLearning cfg qTable s a r s') k).isSome = true)
  ∧ ((qlookup qTable k).isSome = true →
        (qlookup (rlModelTable qTable ticks) k).isSome = true)
  ∧ (k ≠ getState ticks → qlookup (rlModelTable qTable ticks) k = qlookup qTable k)
  ∧ (20 ≤ ticks.length →
        (qlookup (rlModelTable qTable ticks) (getState ticks)).isSome = true) := by
  refine ⟨?_, ?_, ?_, ?_, ?_, ?_, ?_, ?_⟩
  · intro h1 h2
    rw [updateQLearning_lookup]
    simp [h1, h2]
  · intro h1 h2
    rw [updateQLearning_lookup]
    subst h2
    simp [h1]
  · rw [updateQLearning_lookup]
    simp
  · unfold qlookupD
    rw [updateQLearning_lookup]
    simp [QRow.get_set_other, qlookupD]
  · intro hk
    rw [updateQLearning_lookup]
    by_cases h1 : k = s
    · rw [if_pos h1]; rfl
    · rw [if_neg h1]
      by_cases h2 : k = s'
      · rw [if_pos h2]; rfl
      · rw [if_neg h2]; exact hk
  · intro hk
    unfold rlModelTable
    by_cases hl : ticks.length < 20
    · rw [if_pos hl]; exact hk
    · rw [if_neg hl, qlookup_ensureRow]
      by_cases h1 : k = getState ticks <;> simp [h1, hk]
  · intro hk
    unfold rlModelTable
    by_cases hl : ticks.length < 20
    · rw [if_pos hl]
    · rw [if_neg hl, qlookup_ensureRow, if_neg hk]
  · intro hlen
    unfold rlModelTable
    rw [if_neg (by omega), qlookup_ensureRow]
    simp

theorem C9_value_table_frame_witness :
    qlookup (updateQLearning defaultConfig [(⟨7, 1, [true]⟩, ⟨2, 3⟩)] ⟨1, 2, [true]⟩
        Parity.EVEN 1 ⟨2, 3, [false]⟩) ⟨7, 1, [true]⟩ = some ⟨2, 3⟩ := by
  have h := (C9_value_table_frame defaultConfig [(⟨7, 1, [true]⟩, ⟨2, 3⟩)] ⟨1, 2, [true]⟩
      Parity.EVEN 1 ⟨2, 3, [false]⟩ ⟨7, 1, [true]⟩ []).1 (by decide) (by decide)
  rw [h]
  rfl

/-- C5: fusing an empty prediction list short-circuits to a no-trade
decision with zero confidence, no final prediction and the explicit reason
string, for every configuration, accuracy store and random stream (so the
weighting stage is never consulted and no exception is possible). -/
theorem C5_empty_prediction_list (cfg : Config) (models : List (String × ModelData))
    (rnd : ℕ → ℚ) :
    fuseDecisions cfg models rnd []
      = ⟨none, 0, false, "No models provided predictions", [], none, none⟩ := rfl

/-- C2: the Monte Carlo simulation invoked with zero iterations does not
yield the defined result the specification demands: `winProbability` is the
undefined ratio `0/0 = NaN`, and the gate's test `NaN < 0.5` is false, so
the gate would not reject.  Evaluated at an explicit input as well. -/
theorem C2_monte_carlo_zero_iterations :
    (∀ (rnd : ℕ → ℚ) (predictions : List ModelPrediction),
        runMonteCarloSimulation rnd predictions 0 = ⟨JSNum.nan, 0, 0⟩)
  ∧ runMonteCarloSimulation (fun _ => 0) [⟨"statistical", some Parity.EVEN, 1/2⟩] 0
      = ⟨JSNum.nan, 0, 0⟩
  ∧ jsLt JSNum.nan (1/2) = false := by
  exact ⟨fun _ _ => rfl, rfl, rfl⟩

/-- C3: for every non-empty prediction list, the fused final prediction is
EVEN exactly when the even score strictly exceeds the odd score, so every
tie — including the all-zero case — resolves to ODD (the empty list is
handled by the separate short-circuit of C5). -/
theorem C3_fusion_tie_break (cfg : Config) (models : List (String × ModelData))
    (rnd : ℕ → ℚ) (predictions : List ModelPrediction) (h : predictions ≠ []) :
    (fuseDecisions cfg models rnd predictions).finalPrediction
      = some (if (voteScores predictions
                    (calculateWeights models predictions cfg.strategy.weightMethod)).1
                  > (voteScores predictions
                      (calculateWeights models predictions cfg.strategy.weightMethod)).2
              then Parity.EVEN else Parity.ODD)
  ∧ ((voteScores predictions
        (calculateWeights models predictions cfg.strategy.weightMethod)).1
      = (voteScores predictions
          (calculateWeights models predictions cfg.strategy.weightMethod)).2 →
      (fuseDecisions cfg models rnd predictions).finalPrediction = some Parity.ODD) := by
  have hlen : ¬(predictions.length = 0) := by simpa using h
  have main : (fuseDecisions cfg models rnd predictions).finalPrediction
      = some (if (voteScores predictions
                    (calculateWeights models predictions cfg.strategy.weightMethod)).1
                  > (voteScores predictions
                      (calculateWeights models predictions cfg.strategy.weightMethod)).2
              then Parity.EVEN else Parity.ODD) := by
    simp only [fuseDecisions]
    rw [if_neg hlen]
    split_ifs <;> rfl
  refine ⟨main, fun htie => ?_⟩
  rw [main, htie]
  simp [lt_irrefl]

theorem C3_fusion_tie_break_witness :
    (fuseDecisions ⟨defaultConfig.models, ⟨"equal", "voting"⟩, ⟨60⟩⟩ [] (fun _ => 0)
        [⟨"statistical", some Parity.EVEN, 1/2⟩, ⟨"pattern", some Parity.ODD, 1/2⟩]).finalPrediction
      = some Parity.ODD :=
  (C3_fusion_tie_break ⟨defaultConfig.models, ⟨"equal", "voting"⟩, ⟨60⟩⟩ [] (fun _ => 0)
      [⟨"statistical", some Parity.EVEN, 1/2⟩, ⟨"pattern", some Parity.ODD, 1/2⟩]
      (by simp)).2 (by rfl)

theorem foldl_add_eq_sum (l : List ℚ) (a : ℚ) : l.foldl (· + ·) a = a + l.sum := by
  induction l generalizing a with
  | nil => simp
  | cons x l ih => simp [List.foldl_cons, ih, List.sum_cons]; ring

theorem sum_map_const_q {α : Type} (l : List α) (c : ℚ) :
    (l.map (fun _ => c)).sum = l.length * c := by
  induction l with
  | nil => simp
  | cons x l ih => simp [ih]; ring

theorem sum_map_div_q (l : List ℚ) (t : ℚ) :
    (l.map (fun x => x / t)).sum = l.sum / t := by
  induction l with
  | nil => simp
  | cons x l ih => simp [ih, add_div]

theorem map_const_eq {α β : Type} (l1 : List α) (l2 : List β) (c : ℚ)
    (h : l1.length = l2.length) :
    l1.map (fun _ => c) = l2.map (fun _ => c) := by
  induction l1 generalizing l2 with
  | nil =>
      cases l2 with
      | nil => rfl
      | cons b t => simp at h
  | cons a t ih =>
      cases l2 with
      | nil => simp at h
      | cons b t2 =>
          simp only [List.length_cons] at h
          simp only [List.map_cons, List.cons.injEq]
          exact ⟨trivial, ih t2 (by omega)⟩

theorem calculateWeights_sum (models : List (String × ModelData))
    (predictions : List ModelPrediction) (method : String) (hne : predictions ≠ []) :
    (calculateWeights models predictions method).sum = 1 := by
  have hn : (predictions.length : ℚ) ≠ 0 := by
    have : predictions.length ≠ 0 := fun h => hne (List.length_eq_zero.mp h)
    exact_mod_cast this
  have hequal : (predictions.map (fun _ => 1 / (predictions.length : ℚ))).sum = 1 := by
    rw [sum_map_const_q]
    field_simp
  unfold calculateWeights
  split
  · exact hequal
  · by_cases ht : 0 < (performanceAccuracies models predictions).foldl (· + ·) 0
    · simp only [ht, if_true]
      rw [sum_map_div_q, foldl_add_eq_sum, zero_add]
      exact div_self (ne_of_gt (by rwa [foldl_add_eq_sum, zero_add] at ht))
    · simp only [ht, if_false]
      rw [sum_map_const_q]
      have hlen : (performanceAccuracies models predictions).length = predictions.length := by
        unfold performanceAccuracies
        simp
      rw [hlen]
      field_simp
  · by_cases ht : 0 < (predictions.map (fun p => p.confidence)).foldl (· + ·) 0
    · simp only [ht, if_true]
      rw [sum_map_div_q, foldl_add_eq_sum, zero_add]
      exact div_self (ne_of_gt (by rwa [foldl_add_eq_sum, zero_add] at ht))
    · simp only [ht, if_false]
      rw [sum_map_const_q]
      simp only [List.length_map]
      field_simp
  · exact hequal

/-- C4: for every non-empty prediction list with non-negative stored
accuracies and confidences, each weighting method returns one weight per
prediction summing to 1 within 1e-9, the equal method's weights are all
identical, a zero total for the performance or confidence method falls back
to the equal weights, and any unknown method name yields the equal
weights. -/
theorem C4_weighting_methods (models : List (String × ModelData))
    (predictions : List ModelPrediction) (method : String)
    (hne : predictions ≠ [])
    (hacc : ∀ m ∈ models, 0 ≤ m.2.accuracy)
    (hconf : ∀ p ∈ predictions, 0 ≤ p.confidence) :
    (calculateWeights models predictions method).length = predictions.length
  ∧ |(calculateWeights models predictions method).sum - 1| ≤ 1/1000000000
  ∧ (∀ w ∈ calculateWeights models predictions "equal",
        w = 1 / (predictions.length : ℚ))
  ∧ (method ≠ "equal" → method ≠ "performance" → method ≠ "confidence" →
      calculateWeights models predictions method
        = calculateWeights models predictions "equal")
  ∧ ((performanceAccuracies models predictions).foldl (· + ·) 0 = 0 →
      calculateWeights models predictions "performance"
        = calculateWeights models predictions "equal")
  ∧ ((predictions.map (fun p => p.confidence)).foldl (· + ·) 0 = 0 →
      calculateWeights models predictions "confidence"
        = calculateWeights models predictions "equal") := by
  refine ⟨?_, ?_, ?_, ?_, ?_, ?_⟩
  · unfold calculateWeights
    split <;> simp [performanceAccuracies]
  · rw [calculateWeights_sum models predictions method hne]
    norm_num
  · intro w hw
    unfold calculateWeights at hw
    simp only [List.mem_map] at hw
    obtain ⟨p, _, hp⟩ := hw
    exact hp.symm
  · intro h1 h2 h3
    unfold calculateWeights
    split
    · rfl
    · exact absurd rfl h2
    · exact absurd rfl h3
    · rfl
  · intro ht
    unfold calculateWeights
    have : ¬(0 < (performanceAccuracies models predictions).foldl (· + ·) 0) := by
      rw [ht]; exact lt_irrefl 0
    simp only [this, if_false]
    exact map_const_eq _ _ _ (by unfold performanceAccuracies; simp)
  · intro ht
    unfold calculateWeights
    have : ¬(0 < (predictions.map (fun p => p.confidence)).foldl (· + ·) 0) := by
      rw [ht]; exact lt_irrefl 0
    simp only [this, if_false]
    exact map_const_eq _ _ _ (by simp)

theorem C4_weighting_methods_witness :
    calculateWeights [] [⟨"statistical", some Parity.EVEN, 1/2⟩] "bogus"
      = calculateWeights [] [⟨"statistical", some Parity.EVEN, 1/2⟩] "equal" :=
  (C4_weighting_methods [] [⟨"statistical", some Parity.EVEN, 1/2⟩] "bogus"
      (by simp) (by simp) (by intro p hp; fin_cases hp; norm_num)).2.2.2.1
    (by decide) (by decide) (by decide)

theorem similarity_matches_le (p1 p2 : List ℕ) :
    ((p1.zip p2).filter (fun q => q.1 = q.2)).length ≤ p1.length := by
  calc ((p1.zip p2).filter (fun q => q.1 = q.2)).length
      ≤ (p1.zip p2).length := List.length_filter_le _ _
    _ ≤ p1.length := by rw [List.length_zip]; exact min_le_left _ _

theorem similarity_matches_eq_iff (p1 p2 : List ℕ) (h : p1.length = p2.length) :
    (((p1.zip p2).filter (fun q => q.1 = q.2)).length = p1.length) ↔ p1 = p2 := by
  induction p1 generalizing p2 with
  | nil =>
      cases p2 with
      | nil => simp
      | cons b t => simp at h
  | cons a t ih =>
      cases p2 with
      | nil => simp at h
      | cons b t2 =>
          simp only [List.length_cons] at h
          have ht : t.length = t2.length := by omega
          by_cases hab : a = b
          · subst hab
            have hstep : ((List.filter (fun q : ℕ × ℕ => decide (q.1 = q.2))
                  ((a :: t).zip (a :: t2)))).length
                = ((List.filter (fun q : ℕ × ℕ => decide (q.1 = q.2)) (t.zip t2))).length + 1 := by
              simp [List.zip_cons_cons, List.filter_cons]
            rw [hstep]
            simp only [List.length_cons]
            constructor
            · intro he
              have h2 := (ih t2 ht).mp (by omega)
              rw [h2]
            · intro he
              have h2 : t = t2 := by injection he
              rw [(ih t2 ht).mpr h2]
          · have hstep : ((List.filter (fun q : ℕ × ℕ => decide (q.1 = q.2))
                  ((a :: t).zip (b :: t2)))).length
                = ((List.filter (fun q : ℕ × ℕ => decide (q.1 = q.2)) (t.zip t2))).length := by
              simp [List.zip_cons_cons, List.filter_cons, hab]
            rw [hstep]
            simp only [List.length_cons]
            constructor
            · intro he
              exfalso
              have hle := similarity_matches_le t t2
              omega
            · intro he
              exfalso
              have h1 : a = b := by injection he
              exact hab h1

/-- C7 (amended): the similarity function returns 0 whenever the lengths
differ; on equal-length non-empty sequences it returns a rational in [0,1]
that equals 1 exactly when the sequences are element-wise equal; on two
empty sequences the source divides 0 by 0, yielding NaN rather than 1. -/
theorem C7_pattern_similarity (p1 p2 : List ℕ) :
    (p1.length ≠ p2.length → calculatePatternSimilarity p1 p2 = JSNum.num 0)
  ∧ (p1.length = p2.length → p1 ≠ [] →
      ∃ q : ℚ, calculatePatternSimilarity p1 p2 = JSNum.num q
        ∧ 0 ≤ q ∧ q ≤ 1 ∧ (q = 1 ↔ p1 = p2))
  ∧ calculatePatternSimilarity [] [] = JSNum.nan := by
  refine ⟨?_, ?_, rfl⟩
  · intro h
    unfold calculatePatternSimilarity
    rw [if_pos h]
  · intro hlen hne
    have hlen0 : p1.length ≠ 0 := fun h => hne (List.length_eq_zero.mp h)
    have hn : (0 : ℚ) < (p1.length : ℚ) := by
      have : 0 < p1.length := Nat.pos_of_ne_zero hlen0
      exact_mod_cast this
    unfold calculatePatternSimilarity
    rw [if_neg (by simp [hlen]), if_neg hlen0]
    refine ⟨_, rfl, ?_, ?_, ?_⟩
    · positivity
    · rw [div_le_one hn]
      exact_mod_cast similarity_matches_le p1 p2
    · rw [div_eq_one_iff_eq (ne_of_gt hn)]
      rw [show ((((p1.zip p2).filter (fun q => q.1 = q.2)).length : ℚ) = (p1.length : ℚ))
            ↔ (((p1.zip p2).filter (fun q => q.1 = q.2)).length = p1.length) from Nat.cast_inj]
      exact similarity_matches_eq_iff p1 p2 hlen

theorem C7_pattern_similarity_counterexample :
    calculatePatternSimilarity [] [] = JSNum.nan ∧ JSNum.nan ≠ JSNum.num 1 :=
  ⟨rfl, by simp⟩

theorem C7_pattern_similarity_witness :
    calculatePatternSimilarity [1, 2] [1, 2] = JSNum.num 1
  ∧ calculatePatternSimilarity [1] [1, 2] = JSNum.num 0 := by
  have h2 := (C7_pattern_similarity [1, 2] [1, 2]).2.1 rfl (by simp)
  obtain ⟨q, hq, _, _, hiff⟩ := h2
  exact ⟨by rw [hq, hiff.mpr rfl], (C7_pattern_similarity [1] [1, 2]).1 (by simp)⟩

theorem ruleChain_bounds (sc : ℕ) (st : Parity) (ld : ℕ) (le : Bool) :
    (defaultRule le (fibRule ld le (rulesStreak defaultConfig sc st))).1 ≠ none
  ∧ 13/25 ≤ (defaultRule le (fibRule ld le (rulesStreak defaultConfig sc st))).2
  ∧ (defaultRule le (fibRule ld le (rulesStreak defaultConfig sc st))).2 ≤ 1 := by
  unfold defaultRule fibRule rulesStreak
  split_ifs <;> simp_all [defaultConfig] <;> norm_num

/-- C10: for every history of length at least 5 the rule engine returns an
EVEN or ODD prediction, never none, with confidence at least 0.52, because
the default-alternation rule fires whenever no earlier rule predicted. -/
theorem C10_rule_engine_total (ticks : List Tick) (h5 : 5 ≤ ticks.length) :
    (ruleBasedModel defaultConfig ticks).prediction ≠ none
  ∧ 13/25 ≤ (ruleBasedModel defaultConfig ticks).confidence := by
  have hb := ruleChain_bounds (ruleStreakCount ticks) (ruleStreakType ticks)
    (ruleLastTick ticks).digit (ruleLastTick ticks).isEven
  unfold ruleBasedModel
  rw [if_neg (by omega)]
  exact ⟨hb.1, hb.2.1⟩

theorem C10_rule_engine_total_witness :
    (ruleBasedModel defaultConfig (List.replicate 5 ⟨1, false, 0, 0⟩)).prediction ≠ none
  ∧ 13/25 ≤ (ruleBasedModel defaultConfig (List.replicate 5 ⟨1, false, 0, 0⟩)).confidence :=
  C10_rule_engine_total (List.replicate 5 ⟨1, false, 0, 0⟩) (by simp)

/-- C8: for a history of length at least 5 whose last digit is a Fibonacci
digit, the Fibonacci rule overwrites the earlier rules' result with the
opposite parity of the last digit at confidence 0.65 exactly when no earlier
rule predicted or the current confidence is below 0.65; otherwise the
earlier result stands. -/
theorem C8_fibonacci_rule (ticks : List Tick) (h5 : 5 ≤ ticks.length)
    (hfib : (ruleLastTick ticks).digit ∈ [0, 1, 1, 2, 3, 5, 8]) :
    ((rulesStreak defaultConfig (ruleStreakCount ticks) (ruleStreakType ticks)).1 = none
      ∨ (rulesStreak defaultConfig (ruleStreakCount ticks) (ruleStreakType ticks)).2 < 13/20 →
      ruleBasedModel defaultConfig ticks
        = ⟨"ruleBased",
           some (if (ruleLastTick ticks).isEven then Parity.ODD else Parity.EVEN),
           13/20⟩)
  ∧ (¬((rulesStreak defaultConfig (ruleStreakCount ticks) (ruleStreakType ticks)).1 = none
        ∨ (rulesStreak defaultConfig (ruleStreakCount ticks) (ruleStreakType ticks)).2 < 13/20) →
      ruleBasedModel defaultConfig ticks
        = ⟨"ruleBased",
           (rulesStreak defaultConfig (ruleStreakCount ticks) (ruleStreakType ticks)).1,
           (rulesStreak defaultConfig (ruleStreakCount ticks) (ruleStreakType ticks)).2⟩) := by
  constructor
  · intro hc
    unfold ruleBasedModel
    rw [if_neg (by omega)]
    unfold fibRule
    rw [if_pos hfib, if_pos hc]
    unfold defaultRule
    rw [if_neg (by simp)]
  · intro hc
    unfold ruleBasedModel
    rw [if_neg (by omega)]
    unfold fibRule
    rw [if_pos hfib, if_neg hc]
    unfold defaultRule
    rw [if_neg (fun h => hc (Or.inl h))]

theorem C8_fibonacci_rule_witness :
    ruleBasedModel defaultConfig
        [⟨1, false, 0, 0⟩, ⟨2, true, 0, 0⟩, ⟨1, false, 0, 0⟩, ⟨2, true, 0, 0⟩, ⟨3, false, 0, 0⟩]
      = ⟨"ruleBased", some Parity.EVEN, 13/20⟩
  ∧ ruleBasedModel defaultConfig (List.replicate 5 ⟨1, false, 0, 0⟩)
      = ⟨"ruleBased", some Parity.EVEN, 7/10⟩ := by
  constructor
  · have h := (C8_fibonacci_rule
        [⟨1, false, 0, 0⟩, ⟨2, true, 0, 0⟩, ⟨1, false, 0, 0⟩, ⟨2, true, 0, 0⟩, ⟨3, false, 0, 0⟩]
        (by simp) (by decide)).1
      (Or.inl (by
        rw [show rulesStreak defaultConfig
            (ruleStreakCount [⟨1, false, 0, 0⟩, ⟨2, true, 0, 0⟩, ⟨1, false, 0, 0⟩,
              ⟨2, true, 0, 0⟩, ⟨3, false, 0, 0⟩])
            (ruleStreakType [⟨1, false, 0, 0⟩, ⟨2, true, 0, 0⟩, ⟨1, false, 0, 0⟩,
              ⟨2, true, 0, 0⟩, ⟨3, false, 0, 0⟩]) = (none, 1/2) from rfl]))
    rw [h]
    rfl
  · have h := (C8_fibonacci_rule (List.replicate 5 ⟨1, false, 0, 0⟩)
        (by simp) (by decide)).2
      (by
        rw [show rulesStreak defaultConfig
            (ruleStreakCount (List.replicate 5 ⟨1, false, 0, 0⟩))
            (ruleStreakType (List.replicate 5 ⟨1, false, 0, 0⟩))
              = (some Parity.EVEN, 7/10) from rfl]
        simp
        norm_num)
    rw [h]
    rfl

theorem calculateEMA_bounds (data : List ℚ) (period : ℚ) (alpha : ℚ)
    (ha0 : 0 ≤ alpha) (ha1 : alpha ≤ 1) (hdata : ∀ x ∈ data, 0 ≤ x ∧ x ≤ 1) :
    ∀ e, calculateEMA data period (some alpha) = some e → 0 ≤ e ∧ e ≤ 1 := by
  intro e he
  cases data with
  | nil => simp [calculateEMA] at he
  | cons d rest =>
      simp only [calculateEMA, Option.getD_some, Option.some.injEq] at he
      have hd := hdata d (by simp)
      have key : ∀ (l : List ℚ) (acc : ℚ), 0 ≤ acc → acc ≤ 1 →
          (∀ x ∈ l, 0 ≤ x ∧ x ≤ 1) →
          0 ≤ l.foldl (fun ema x => alpha * x + (1 - alpha) * ema) acc
            ∧ l.foldl (fun ema x => alpha * x + (1 - alpha) * ema) acc ≤ 1 := by
        intro l
        induction l with
        | nil => intro acc h0 h1 _; exact ⟨h0, h1⟩
        | cons x t ih =>
            intro acc h0 h1 hmem
            have hx := hmem x (by simp)
            simp only [List.foldl_cons]
            apply ih
            · nlinarith [hx.1, hx.2]
            · nlinarith [hx.1, hx.2]
            · intro y hy; exact hmem y (by simp [hy])
      have := key rest d hd.1 hd.2 (fun y hy => hdata y (by simp [hy]))
      rw [he] at this
      exact this

theorem statShrunkEven_bounds (cfg : Config) (ticks : List Tick) :
    1/20 ≤ statShrunkEven cfg ticks ∧ statShrunkEven cfg ticks ≤ 19/20 := by
  unfold statShrunkEven
  have hp : 0 ≤ ((statEvenCount cfg ticks : ℚ) / (statLookback cfg ticks : ℚ))
      ∧ ((statEvenCount cfg ticks : ℚ) / (statLookback cfg ticks : ℚ)) ≤ 1 := by
    constructor
    · positivity
    · by_cases h0 : statLookback cfg ticks = 0
      · simp [h0]
      · rw [div_le_one (by exact_mod_cast Nat.pos_of_ne_zero h0)]
        have hle : statEvenCount cfg ticks ≤ statLookback cfg ticks := by
          unfold statEvenCount
          calc ((statRecentTicks cfg ticks).filter (fun t => t.isEven)).length
              ≤ (statRecentTicks cfg ticks).length := List.length_filter_le _ _
            _ ≤ statLookback cfg ticks := by
                unfold statRecentTicks sliceNeg
                rw [if_neg h0]
                simp only [List.length_drop]
                omega
        exact_mod_cast hle
  constructor <;> nlinarith [hp.1, hp.2]

theorem statShrunkOdd_bounds (cfg : Config) (ticks : List Tick) :
    1/20 ≤ statShrunkOdd cfg ticks ∧ statShrunkOdd cfg ticks ≤ 19/20 := by
  unfold statShrunkOdd
  have hp : 0 ≤ (((statLookback cfg ticks - statEvenCount cfg ticks : ℕ) : ℚ)
        / (statLookback cfg ticks : ℚ))
      ∧ (((statLookback cfg ticks - statEvenCount cfg ticks : ℕ) : ℚ)
        / (statLookback cfg ticks : ℚ)) ≤ 1 := by
    constructor
    · positivity
    · by_cases h0 : statLookback cfg ticks = 0
      · simp [h0]
      · rw [div_le_one (by exact_mod_cast Nat.pos_of_ne_zero h0)]
        have hle : statLookback cfg ticks - statEvenCount cfg ticks
            ≤ statLookback cfg ticks := Nat.sub_le _ _
        exact_mod_cast hle
  constructor <;> nlinarith [hp.1, hp.2]

theorem statisticalModel_bounds (ticks : List Tick) :
    0 ≤ (statisticalModel defaultConfig ticks).confidence
  ∧ (statisticalModel defaultConfig ticks).confidence ≤ 1
  ∧ ((statisticalModel defaultConfig ticks).prediction = none →
      (statisticalModel defaultConfig ticks).confidence = 0) := by
  unfold statisticalModel
  by_cases hlen : ticks.length < 10
  · simp [hlen]
  · rw [if_neg hlen]
    have hse := statShrunkEven_bounds defaultConfig ticks
    have hso := statShrunkOdd_bounds defaultConfig ticks
    have hprobs : 0 ≤ (statProbs defaultConfig ticks).1
        ∧ (statProbs defaultConfig ticks).1 ≤ 1
        ∧ 0 ≤ (statProbs defaultConfig ticks).2
        ∧ (statProbs defaultConfig ticks).2 ≤ 1 := by
      unfold statProbs
      cases hev : statEMA defaultConfig ticks with
      | none => exact ⟨by nlinarith [hse.1], by nlinarith [hse.2],
          by nlinarith [hso.1], by nlinarith [hso.2]⟩
      | some e =>
          have hd : ∀ x ∈ (sliceNeg 20 (statRecentTicks defaultConfig ticks)).map
              (fun t => if t.isEven then (1 : ℚ) else 0), 0 ≤ x ∧ x ≤ 1 := by
            intro x hx
            simp only [List.mem_map] at hx
            obtain ⟨t, _, ht⟩ := hx
            by_cases hb : t.isEven <;> simp [hb] at ht <;> simp [← ht] <;> norm_num
          have he := calculateEMA_bounds _ 10 defaultConfig.models.statistical.emaAlpha
            (by norm_num [defaultConfig]) (by norm_num [defaultConfig]) hd e
            (by unfold statEMA at hev; exact hev)
          exact ⟨by nlinarith [hse.1, he.1], by nlinarith [hse.2, he.2],
            by nlinarith [hse.1, he.1, hse.2, he.2], by nlinarith [hse.1, he.1]⟩
    refine ⟨?_, ?_, ?_⟩
    · exact le_trans hprobs.1 (le_max_left _ _)
    · exact max_le hprobs.2.1 hprobs.2.2.2
    · intro h
      simp at h

theorem frac_bounds (ef N : ℕ) (hle : ef ≤ N) :
    0 ≤ (ef : ℚ) / (N : ℚ) ∧ (ef : ℚ) / (N : ℚ) ≤ 1 := by
  constructor
  · positivity
  · by_cases h0 : N = 0
    · simp [h0]
    · rw [div_le_one (by exact_mod_cast Nat.pos_of_ne_zero h0)]
      exact_mod_cast hle

theorem patternConfidence_bounds (cfg : Config) (ticks : List Tick) :
    0 ≤ patternConfidence cfg ticks ∧ patternConfidence cfg ticks ≤ 1 := by
  have he := frac_bounds (patternEvenFollowing cfg ticks)
    ((patternFollowing cfg ticks).length)
    (List.length_filter_le _ _)
  have ho := frac_bounds ((patternFollowing cfg ticks).length - patternEvenFollowing cfg ticks)
    ((patternFollowing cfg ticks).length) (Nat.sub_le _ _)
  have hmax : 0 ≤ max (patternEvenProb cfg ticks) (patternOddProb cfg ticks)
      ∧ max (patternEvenProb cfg ticks) (patternOddProb cfg ticks) ≤ 1 := by
    unfold patternEvenProb patternOddProb
    exact ⟨le_trans he.1 (le_max_left _ _), max_le he.2 ho.2⟩
  unfold patternConfidence
  by_cases ha : detectAnomaly ticks <;> simp only [ha, if_true, if_false]
  · constructor <;> nlinarith [hmax.1, hmax.2]
  · exact hmax

theorem patternModel_bounds (cfg : Config) (ticks : List Tick) :
    0 ≤ (patternModel cfg ticks).confidence
  ∧ (patternModel cfg ticks).confidence ≤ 1
  ∧ ((patternModel cfg ticks).prediction = none →
      (patternModel cfg ticks).confidence = 0) := by
  unfold patternModel
  split_ifs with h1 h2
  · simp
  · simp
  all_goals
    exact ⟨(patternConfidence_bounds cfg ticks).1, (patternConfidence_bounds cfg ticks).2,
      by intro h; simp at h⟩

theorem ruleBasedModel_bounds (ticks : List Tick) :
    0 ≤ (ruleBasedModel defaultConfig ticks).confidence
  ∧ (ruleBasedModel defaultConfig ticks).confidence ≤ 1
  ∧ ((ruleBasedModel defaultConfig ticks).prediction = none →
      (ruleBasedModel defaultConfig ticks).confidence = 0) := by
  unfold ruleBasedModel
  split_ifs with h1
  · simp
  · have hb := ruleChain_bounds (ruleStreakCount ticks) (ruleStreakType ticks)
      (ruleLastTick ticks).digit (ruleLastTick ticks).isEven
    refine ⟨by nlinarith [hb.2.1], hb.2.2, ?_⟩
    intro h
    exact absurd h hb.1

theorem reinforcementLearningModel_bounds (cfg : Config) (qTable : QTable)
    (r1 r2 : ℚ) (ticks : List Tick) :
    (reinforcementLearningModel cfg qTable r1 r2 ticks).confidence ≤ 1
  ∧ ((reinforcementLearningModel cfg qTable r1 r2 ticks).prediction = none →
      (reinforcementLearningModel cfg qTable r1 r2 ticks).confidence = 0)
  ∧ (0 ≤ max (qlookupD qTable (getState ticks)).EVEN (qlookupD qTable (getState ticks)).ODD →
      0 ≤ (reinforcementLearningModel cfg qTable r1 r2 ticks).confidence) := by
  unfold reinforcementLearningModel
  by_cases h1 : ticks.length < 20
  · simp [h1]
  · rw [if_neg h1]
    refine ⟨min_le_right _ _, by intro h; simp at h, ?_⟩
    intro hmax
    have hnn : (0 : ℚ) ≤ min (max (qlookupD qTable (getState ticks)).EVEN
        (qlookupD qTable (getState ticks)).ODD / 10) 1 := by
      rw [le_min_iff]
      exact ⟨by positivity, by norm_num⟩
    exact hnn

/-- C1 (amended): every model's prediction is EVEN, ODD or none (by the
return type) and a none prediction carries confidence 0; the statistical,
pattern and rule-based confidences always lie in [0,1]; the
reinforcement-learning confidence `max(valueRow)/10` is clamped to at most
1 but only from above — it is non-negative whenever the stored row's
maximum is non-negative, and negative otherwise (see the counterexample). -/
theorem C1_model_confidence_bounds :
    (∀ ticks : List Tick,
        0 ≤ (statisticalModel defaultConfig ticks).confidence
      ∧ (statisticalModel defaultConfig ticks).confidence ≤ 1
      ∧ ((statisticalModel defaultConfig ticks).prediction = none →
          (statisticalModel defaultConfig ticks).confidence = 0))
  ∧ (∀ (cfg : Config) (ticks : List Tick),
        0 ≤ (patternModel cfg ticks).confidence
      ∧ (patternModel cfg ticks).confidence ≤ 1
      ∧ ((patternModel cfg ticks).prediction = none →
          (patternModel cfg ticks).confidence = 0))
  ∧ (∀ ticks : List Tick,
        0 ≤ (ruleBasedModel defaultConfig ticks).confidence
      ∧ (ruleBasedModel defaultConfig ticks).confidence ≤ 1
      ∧ ((ruleBasedModel defaultConfig ticks).prediction = none →
          (ruleBasedModel defaultConfig ticks).confidence = 0))
  ∧ (∀ (cfg : Config) (qTable : QTable) (r1 r2 : ℚ) (ticks : List Tick),
        (reinforcementLearningModel cfg qTable r1 r2 ticks).confidence ≤ 1
      ∧ ((reinforcementLearningModel cfg qTable r1 r2 ticks).prediction = none →
          (reinforcementLearningModel cfg qTable r1 r2 ticks).confidence = 0)
      ∧ (0 ≤ max (qlookupD qTable (getState ticks)).EVEN
              (qlookupD qTable (getState ticks)).ODD →
          0 ≤ (reinforcementLearningModel cfg qTable r1 r2 ticks).confidence)) :=
  ⟨statisticalModel_bounds, patternModel_bounds, ruleBasedModel_bounds,
   reinforcementLearningModel_bounds⟩

theorem C1_model_confidence_bounds_witness :
    (statisticalModel defaultConfig []).confidence = 0
  ∧ (patternModel defaultConfig []).confidence = 0
  ∧ (ruleBasedModel defaultConfig []).confidence = 0
  ∧ (reinforcementLearningModel defaultConfig [] 0 0 []).confidence = 0
  ∧ 0 ≤ (reinforcementLearningModel defaultConfig [] 0 0
        (List.replicate 20 ⟨1, false, 0, 0⟩)).confidence :=
  ⟨(C1_model_confidence_bounds.1 []).2.2 rfl,
   (C1_model_confidence_bounds.2.1 defaultConfig []).2.2 rfl,
   (C1_model_confidence_bounds.2.2.1 []).2.2 rfl,
   (C1_model_confidence_bounds.2.2.2 defaultConfig [] 0 0 []).2.1 rfl,
   (C1_model_confidence_bounds.2.2.2 defaultConfig [] 0 0
      (List.replicate 20 ⟨1, false, 0, 0⟩)).2.2
     (by simp [qlookupD, qlookup])⟩

/-- C1 counterexample: after two losing feedback updates on the same
state both stored values are −0.1, and the reinforcement-learning model
then reports confidence −0.01 < 0 — the clamp `min(·, 1)` bounds the
confidence only from above, so "confidence in [0,1]" fails. -/
theorem C1_model_confidence_counterexample :
    (reinforcementLearningModel defaultConfig
      (updateQLearning defaultConfig
        (updateQLearning defaultConfig []
          (getState (List.replicate 20 ⟨1, false, 0, 0⟩)) Parity.EVEN (-1)
          ⟨2, 5, [true, true, true, true, true]⟩)
        (getState (List.replicate 20 ⟨1, false, 0, 0⟩)) Parity.ODD (-1)
        ⟨2, 5, [true, true, true, true, true]⟩)
      1 0 (List.replicate 20 ⟨1, false, 0, 0⟩)).confidence < 0 := by
  have hs : getState (List.replicate 20 (⟨1, false, 0, 0⟩ : Tick))
      = ⟨1, 0, [false, false, false, false, false]⟩ := rfl
  have hne : (⟨1, 0, [false, false, false, false, false]⟩ : LearnerState)
      ≠ ⟨2, 5, [true, true, true, true, true]⟩ := by simp
  rw [hs]
  have hrow1 : qlookup (updateQLearning defaultConfig []
      ⟨1, 0, [false, false, false, false, false]⟩ Parity.EVEN (-1)
      ⟨2, 5, [true, true, true, true, true]⟩)
      ⟨1, 0, [false, false, false, false, false]⟩ = some ⟨-1/10, 0⟩ := by
    rw [updateQLearning_lookup]
    rw [if_pos rfl]
    norm_num [qlookupD, qlookup, QRow.set, QRow.get, defaultConfig]
  have hrow2 : qlookup (updateQLearning defaultConfig
      (updateQLearning defaultConfig []
        ⟨1, 0, [false, false, false, false, false]⟩ Parity.EVEN (-1)
        ⟨2, 5, [true, true, true, true, true]⟩)
      ⟨1, 0, [false, false, false, false, false]⟩ Parity.ODD (-1)
      ⟨2, 5, [true, true, true, true, true]⟩)
      ⟨1, 0, [false, false, false, false, false]⟩ = some ⟨-1/10, -1/10⟩ := by
    rw [updateQLearning_lookup]
    rw [if_pos rfl]
    have hrow1' : qlookupD (updateQLearning defaultConfig []
        ⟨1, 0, [false, false, false, false, false]⟩ Parity.EVEN (-1)
        ⟨2, 5, [true, true, true, true, true]⟩)
        ⟨1, 0, [false, false, false, false, false]⟩ = ⟨-1/10, 0⟩ := by
      unfold qlookupD
      rw [hrow1]
      rfl
    have hrow1'' : qlookupD (updateQLearning defaultConfig []
        ⟨1, 0, [false, false, false, false, false]⟩ Parity.EVEN (-1)
        ⟨2, 5, [true, true, true, true, true]⟩)
        ⟨2, 5, [true, true, true, true, true]⟩ = ⟨0, 0⟩ := by
      unfold qlookupD
      rw [updateQLearning_lookup]
      rw [if_neg (Ne.symm hne), if_pos rfl]
      rfl
    rw [hrow1', hrow1'']
    norm_num [QRow.set, QRow.get, defaultConfig]
  unfold reinforcementLearningModel
  rw [if_neg (by simp)]
  have hconf : qlookupD (updateQLearning defaultConfig
      (updateQLearning defaultConfig []
        ⟨1, 0, [false, false, false, false, false]⟩ Parity.EVEN (-1)
        ⟨2, 5, [true, true, true, true, true]⟩)
      ⟨1, 0, [false, false, false, false, false]⟩ Parity.ODD (-1)
      ⟨2, 5, [true, true, true, true, true]⟩)
      (getState (List.replicate 20 ⟨1, false, 0, 0⟩)) = ⟨-1/10, -1/10⟩ := by
    rw [hs]
    unfold qlookupD
    rw [hrow2]
    rfl
  rw [hconf]
  norm_num
